import Mathlib

set_option autoImplicit false

namespace SecProbe

/-! # Shallow embedding of the eBPF syscall correlation engine

This file embeds the two probe headers `pkg/security/ebpf/c/chmod.h` and
`pkg/security/ebpf/c/mount.h`. Helper code that the two headers include but
that is not among the given sources (the pending-syscall cache operations of
`syscalls.h`, the dentry resolver, the policy fetch and the identity lookups)
is modelled from the specification; every such definition carries a doc
comment starting with `Modelled from the spec`. Kernel memory reads performed
through the eBPF helper accessors are modelled as total functions supplied by
a `Kernel` environment, with reads through a null pointer returning zero. -/

/-- Thread identity, the key under which pending syscalls are cached. -/
abbrev Tid := Nat

/-- Identifier of a kernel directory-entry handle (a `struct dentry` pointer). -/
abbrev DentryId := Nat

/-- The monitored syscall families appearing in the two headers:
`EVENT_CHMOD` (mode-change family: chmod, fchmod, fchmodat) and
`EVENT_MOUNT`. -/
inductive EventType where
  | chmod
  | mount
deriving DecidableEq, Inhabited

/-- Kernel ABI constant `S_IALLUGO`: the permission, setuid, setgid and
sticky bits, `0o7777`. -/
def S_IALLUGO : Nat := 0o7777

/-- `FSTYPE_LEN` from mount.h: size of the filesystem-type byte array. -/
def FSTYPE_LEN : Nat := 16

/-- `struct path_key_t`: a (mount identifier, inode number) pair. -/
structure PathKey where
  mount_id : Nat
  ino : Nat
deriving DecidableEq, Inhabited

/-- `struct file_t`: file identity as carried inside events. -/
structure FileT where
  path_key : PathKey
deriving DecidableEq, Inhabited

/-- One step of the dentry walk: the (mount id, inode) identifiers at the
step plus the name fragment. -/
structure PathFragment where
  key : PathKey
  fragment : String
deriving DecidableEq, Inhabited

/-- The fields of a kernel `struct mount` that the probes read through the
eBPF accessors: mount id, peer group id, device, and the dentry at the root
of its vfsmount. -/
structure KMount where
  mount_id : Nat
  peer_group_id : Nat
  dev : Nat
  dentry : DentryId
deriving DecidableEq, Inhabited

/-- Read-only kernel memory as seen through the eBPF helper accessors:
inode number, parent and name of a dentry, and the filesystem-type name of
the super block a dentry belongs to. -/
structure Kernel where
  ino : DentryId → Nat
  parent : DentryId → DentryId
  dname : DentryId → String
  fstype_name : DentryId → String

/-- Modelled from the spec: the per-syscall-type policy mode, monitor or
discard-by-default. -/
inductive PolicyMode where
  | monitor
  | discard
deriving DecidableEq, Inhabited

/-- `struct policy_t` as used by the entry handlers: carries the mode. -/
structure Policy where
  mode : PolicyMode
deriving DecidableEq, Inhabited

/-- Modelled from the spec: the read-only configuration the probes consult.
`fetch_policy` is the per-syscall-type policy lookup of `syscalls.h`;
`is_unhandled_error` is the `IS_UNHANDLED_ERROR` return-code classification;
`max_depth` is the configured hard bound of the dentry walk. None of the
three is among the given sources. -/
structure Config where
  fetch_policy : EventType → Policy
  is_unhandled_error : Int → Bool
  max_depth : Nat

/-- Modelled from the spec: the entry-side filter decision read by
`trace__sys_chmod`. The policy mode decides admit or discard for the
syscall family; evaluation is side-effect-free. -/
def is_discarded_by_process (mode : PolicyMode) (_t : EventType) : Bool :=
  match mode with
  | .monitor => false
  | .discard => true

/-- The `setattr` payload of `struct syscall_cache_t`: masked mode bits,
the target dentry and the resolved file identity. -/
structure SetattrSyscall where
  mode : Nat
  dentry : Option DentryId
  file : FileT
deriving DecidableEq, Inhabited

/-- The `mount` payload of `struct syscall_cache_t`: the three pointers
stored by the intermediate hooks (null, that is `none`, until a hook fires)
plus the resolved root key and filesystem-type string. -/
structure MountSyscall where
  src_mnt : Option KMount
  dest_mnt : Option KMount
  dest_mountpoint : Option DentryId
  root_key : PathKey
  fstype : String
deriving DecidableEq, Inhabited

/-- `struct syscall_cache_t`: type tag, policy snapshot and the per-family
payload. The C type holds the payloads in a union; the handlers of a family
only ever touch the payload of their own tag. -/
structure SyscallCache where
  type : EventType
  policy : Policy
  setattr : SetattrSyscall
  mount : MountSyscall
deriving DecidableEq, Inhabited

/-- `struct process_context_t`, reduced to the identity snapshot fields. -/
structure ProcessContext where
  pid : Nat
deriving DecidableEq, Inhabited

/-- `struct container_context_t`. -/
structure ContainerContext where
  container_id : String
deriving DecidableEq, Inhabited

/-- Modelled from the spec: the identity caches populated by the external
process-tracking collaborator, looked up by thread identity, possibly
absent. -/
structure IdentEnv where
  proc : Tid → Option ProcessContext
  container : Tid → Option ContainerContext

/-- Modelled from the spec: `fill_process_context` returns the snapshot for
the acting thread, zeroed when the identity cache has no entry. -/
def fill_process_context (env : IdentEnv) (tid : Tid) : ProcessContext :=
  (env.proc tid).getD default

/-- Modelled from the spec: `fill_container_context`, zeroed when absent. -/
def fill_container_context (env : IdentEnv) (tid : Tid) : ContainerContext :=
  (env.container tid).getD default

/-- `struct chmod_event_t`: retval, identity snapshots, file identity and
masked mode bits. -/
structure ChmodEvent where
  retval : Int
  process : ProcessContext
  container : ContainerContext
  file : FileT
  mode : Nat
deriving DecidableEq

/-- `struct mount_event_t`. -/
structure MountEvent where
  retval : Int
  process : ProcessContext
  container : ContainerContext
  mount_id : Nat
  group_id : Nat
  device : Nat
  parent_mount_id : Nat
  parent_ino : Nat
  root_ino : Nat
  root_mount_id : Nat
  fstype : String
deriving DecidableEq

/-- An emitted event, tagged by syscall family. -/
inductive Event where
  | chmod (e : ChmodEvent)
  | mount (e : MountEvent)
deriving DecidableEq

/-- Key of the pending-syscall cache: (thread identity, syscall type). -/
abbrev CacheKey := Tid × EventType

/-- The pending-syscall cache, as an association list keyed by `CacheKey`. -/
abbrev Cache := List (CacheKey × SyscallCache)

/-- Lookup of the pending entry for a thread and syscall type. -/
def lookup_syscall : Cache → Tid → EventType → Option SyscallCache
  | [], _, _ => none
  | e :: c, tid, t => if e.1 = (tid, t) then some e.2 else lookup_syscall c tid t

/-- Removal of every entry with the given key. -/
def remove_key : Cache → CacheKey → Cache
  | [], _ => []
  | e :: c, key => if e.1 = key then remove_key c key else e :: remove_key c key

/-- Modelled from the spec: `cache_syscall` of `syscalls.h` stores or
overwrites the single slot for the key (current thread, payload type). -/
def cache_syscall (c : Cache) (tid : Tid) (s : SyscallCache) : Cache :=
  ((tid, s.type), s) :: remove_key c (tid, s.type)

/-- Modelled from the spec: `peek_syscall`, a read-only lookup used by the
intermediate hooks for the current thread and given type. -/
def peek_syscall (c : Cache) (tid : Tid) (t : EventType) : Option SyscallCache :=
  lookup_syscall c tid t

/-- Modelled from the spec: `pop_syscall` removes and returns the entry for
the current thread and given type; `none` when nothing is pending. -/
def pop_syscall (c : Cache) (tid : Tid) (t : EventType) :
    Option SyscallCache × Cache :=
  (lookup_syscall c tid t, remove_key c (tid, t))

/-- In-place mutation of the pending entry for a key, as done by the
intermediate hooks through the pointer returned by `peek_syscall`. -/
def update_syscall : Cache → Tid → EventType → (SyscallCache → SyscallCache) → Cache
  | [], _, _, _ => []
  | e :: c, tid, t, f =>
      (if e.1 = (tid, t) then (e.1, f e.2) else e) :: update_syscall c tid t f

/-- Engine state: the pending-syscall cache, the events published to the
outbound channel, and the path fragments published by the dentry resolver
(a separate outbound map, not the event channel). -/
structure State where
  cache : Cache
  emitted : List Event
  fragments : List PathFragment
deriving DecidableEq

/-- Modelled from the spec: `send_event` publishes one fixed-layout event to
the outbound channel. -/
def send_event (st : State) (e : Event) : State :=
  { st with emitted := st.emitted ++ [e] }

/-- The state before any probe has fired: empty cache, nothing emitted. -/
def initState : State :=
  { cache := [], emitted := [], fragments := [] }

/-- `get_mount_mount_id`; reading through a null pointer yields zero. -/
def get_mount_mount_id : Option KMount → Nat
  | none => 0
  | some m => m.mount_id

/-- `get_mount_peer_group_id`; zero through a null pointer. -/
def get_mount_peer_group_id : Option KMount → Nat
  | none => 0
  | some m => m.peer_group_id

/-- `get_mount_dev`; zero through a null pointer. -/
def get_mount_dev : Option KMount → Nat
  | none => 0
  | some m => m.dev

/-- `get_vfsmount_dentry (get_mount_vfsmount m)`: the root dentry of the
vfsmount of a mount; null through a null pointer. -/
def get_vfsmount_dentry : Option KMount → Option DentryId
  | none => none
  | some m => some m.dentry

/-- `get_mountpoint_dentry`: the dentry of a mountpoint. The mountpoint
argument is modelled by the dentry it designates, so this is the identity
on present values. -/
def get_mountpoint_dentry : Option DentryId → Option DentryId
  | none => none
  | some d => some d

/-- `get_dentry_ino`; zero through a null pointer. -/
def get_dentry_ino (k : Kernel) : Option DentryId → Nat
  | none => 0
  | some d => k.ino d

/-- `get_super_block_fs` composed with the name read: the filesystem-type
name of the super block a dentry belongs to; empty through a null pointer. -/
def get_super_block_fs_name (k : Kernel) : Option DentryId → String
  | none => ""
  | some d => k.fstype_name d

/-- Modelled from the spec: the bounded dentry walk behind `resolve_dentry`
(its definition is not among the given sources). One fragment is produced
per step toward the root; the walk stops on reaching a filesystem root
(a dentry that is its own parent) or after the given number of steps. -/
def dentry_walk (k : Kernel) (mount_id : Nat) : DentryId → Nat → List PathFragment
  | _, 0 => []
  | d, fuel + 1 =>
      if k.parent d = d then []
      else
        { key := { mount_id := mount_id, ino := k.ino d }, fragment := k.dname d }
          :: dentry_walk k mount_id (k.parent d) fuel

/-- Modelled from the spec: `resolve_dentry` walks a directory-entry handle
toward the filesystem root for at most `max_depth` steps, producing the
ordered fragment sequence; a null handle produces nothing. -/
def resolve_dentry (k : Kernel) (d : Option DentryId) (key : PathKey)
    (max_depth : Nat) : List PathFragment :=
  match d with
  | none => []
  | some d => dentry_walk k key.mount_id d max_depth

/-- `trace__sys_chmod` from chmod.h, shared by the chmod, fchmod and
fchmodat entry kprobes: fetch the policy, return early when the filter
discards, else cache a pending `EVENT_CHMOD` entry carrying the mode
masked with `S_IALLUGO`. -/
def trace__sys_chmod (cfg : Config) (tid : Tid) (mode : Nat) (st : State) : State :=
  let policy := cfg.fetch_policy .chmod
  if is_discarded_by_process policy.mode .chmod then st
  else
    { st with
        cache := cache_syscall st.cache tid
          { type := .chmod
            policy := policy
            setattr := { mode := mode &&& S_IALLUGO, dentry := none, file := default }
            mount := default } }

/-- Modelled from the spec: the intermediate kernel-transition hook of the
mode-change family (the dentry resolution noted in chmod.h as living in
setattr.h, which is not among the given sources). It mutates the pending
entry of the current thread with the resolved target file identity; with no
pending entry it is a no-op. -/
def hook_setattr (tid : Tid) (file : FileT) (st : State) : State :=
  match peek_syscall st.cache tid .chmod with
  | none => st
  | some _ =>
      { st with
          cache := update_syscall st.cache tid .chmod
            (fun s => { s with setattr := { s.setattr with file := file } }) }

/-- `do_sys_chmod_ret` from chmod.h: return early on an unhandled error
return code, otherwise assemble the chmod event from the pending payload
and the identity snapshots and publish it. -/
def do_sys_chmod_ret (cfg : Config) (env : IdentEnv) (tid : Tid)
    (syscall : SyscallCache) (retval : Int) (st : State) : State :=
  if cfg.is_unhandled_error retval then st
  else
    send_event st (.chmod
      { retval := retval
        process := fill_process_context env tid
        container := fill_container_context env tid
        file := syscall.setattr.file
        mode := syscall.setattr.mode })

/-- `handle_sys_chmod_exit` from chmod.h (the kretprobe variant
`trace__sys_chmod_ret` is identical modulo how retval is fetched): pop the
pending entry, no-op when absent, else run `do_sys_chmod_ret`. -/
def handle_sys_chmod_exit (cfg : Config) (env : IdentEnv) (tid : Tid)
    (retval : Int) (st : State) : State :=
  match pop_syscall st.cache tid .chmod with
  | (none, _) => st
  | (some syscall, rest) =>
      do_sys_chmod_ret cfg env tid syscall retval { st with cache := rest }

/-- `SYSCALL_COMPAT_KPROBE3(mount)` from mount.h: cache a pending
`EVENT_MOUNT` entry with a zero-initialized payload. No policy is fetched
and no filter is evaluated. -/
def sys_mount_entry (tid : Tid) (st : State) : State :=
  { st with
      cache := cache_syscall st.cache tid
        { type := .mount, policy := default, setattr := default, mount := default } }

/-- The mount payload stored by both intermediate mount hooks: the three
pointers, the resolved root key and the filesystem-type name. -/
def mount_hook_payload (k : Kernel) (src dest : KMount) (mp : DentryId) :
    MountSyscall :=
  { src_mnt := some src
    dest_mnt := some dest
    dest_mountpoint := some mp
    root_key :=
      { mount_id := get_mount_mount_id (some src)
        ino := get_dentry_ino k (get_vfsmount_dentry (some src)) }
    fstype := get_super_block_fs_name k (get_vfsmount_dentry (some src)) }

/-- `kprobe__attach_recursive_mnt` from mount.h: with no pending mount
entry, a no-op; else store the source and destination mount pointers and
the mountpoint, resolve the root dentry of the source mount into the
root key and fragments, and read the filesystem-type name. -/
def kprobe__attach_recursive_mnt (cfg : Config) (k : Kernel) (tid : Tid)
    (src dest : KMount) (mp : DentryId) (st : State) : State :=
  match peek_syscall st.cache tid .mount with
  | none => st
  | some _ =>
      { st with
          cache := update_syscall st.cache tid .mount
            (fun s => { s with mount := mount_hook_payload k src dest mp })
          fragments := st.fragments ++
            resolve_dentry k (get_vfsmount_dentry (some src))
              (mount_hook_payload k src dest mp).root_key cfg.max_depth }

/-- `kprobe__propagate_mnt` from mount.h: same body as
`kprobe__attach_recursive_mnt` with the argument registers permuted
(destination mount, mountpoint, source mount). -/
def kprobe__propagate_mnt (cfg : Config) (k : Kernel) (tid : Tid)
    (dest : KMount) (mp : DentryId) (src : KMount) (st : State) : State :=
  match peek_syscall st.cache tid .mount with
  | none => st
  | some _ =>
      { st with
          cache := update_syscall st.cache tid .mount
            (fun s => { s with mount := mount_hook_payload k src dest mp })
          fragments := st.fragments ++
            resolve_dentry k (get_vfsmount_dentry (some src))
              (mount_hook_payload k src dest mp).root_key cfg.max_depth }

/-- `do_sys_mount_ret` from mount.h: return early on any nonzero retval;
assemble the event from the pending payload; return early, before any
identity fill, dentry resolution or publication, when the source mount id
and device both read zero; else resolve the mountpoint dentry and publish. -/
def do_sys_mount_ret (cfg : Config) (k : Kernel) (env : IdentEnv) (tid : Tid)
    (syscall : SyscallCache) (retval : Int) (st : State) : State :=
  if retval ≠ 0 then st
  else
    let dentry := get_mountpoint_dentry syscall.mount.dest_mountpoint
    let path_key : PathKey :=
      { mount_id := get_mount_mount_id syscall.mount.dest_mnt
        ino := get_dentry_ino k dentry }
    let event : MountEvent :=
      { retval := retval
        process := fill_process_context env tid
        container := fill_container_context env tid
        mount_id := get_mount_mount_id syscall.mount.src_mnt
        group_id := get_mount_peer_group_id syscall.mount.src_mnt
        device := get_mount_dev syscall.mount.src_mnt
        parent_mount_id := path_key.mount_id
        parent_ino := path_key.ino
        root_ino := syscall.mount.root_key.ino
        root_mount_id := syscall.mount.root_key.mount_id
        fstype := syscall.mount.fstype.take (FSTYPE_LEN - 1) }
    if event.mount_id = 0 ∧ event.device = 0 then st
    else
      send_event
        { st with
            fragments := st.fragments ++ resolve_dentry k dentry path_key cfg.max_depth }
        (.mount event)

/-- `handle_sys_mount_exit` from mount.h (the compat kretprobe is
identical modulo how retval is fetched): pop the pending entry, no-op when
absent, else run `do_sys_mount_ret`. -/
def handle_sys_mount_exit (cfg : Config) (k : Kernel) (env : IdentEnv)
    (tid : Tid) (retval : Int) (st : State) : State :=
  match pop_syscall st.cache tid .mount with
  | (none, _) => st
  | (some syscall, rest) =>
      do_sys_mount_ret cfg k env tid syscall retval { st with cache := rest }

/-- One instrumentation invocation delivered to the engine: a syscall
entry, an intermediate kernel-transition hook, or a syscall exit, each for
an acting thread, with the values the probe reads from its arguments. -/
inductive Action where
  | chmodEntry (tid : Tid) (mode : Nat)
  | setattrHook (tid : Tid) (file : FileT)
  | chmodExit (tid : Tid) (retval : Int)
  | mountEntry (tid : Tid)
  | attachRecursiveMnt (tid : Tid) (src dest : KMount) (mp : DentryId)
  | propagateMnt (tid : Tid) (dest : KMount) (mp : DentryId) (src : KMount)
  | mountExit (tid : Tid) (retval : Int)

/-- Whether an action is an intermediate kernel-transition hook. -/
def Action.isHook : Action → Bool
  | .setattrHook .. => true
  | .attachRecursiveMnt .. => true
  | .propagateMnt .. => true
  | _ => false

/-- Whether an action is a syscall exit. -/
def Action.isRet : Action → Bool
  | .chmodExit .. => true
  | .mountExit .. => true
  | _ => false

/-- Dispatch of one invocation to its handler. -/
def step (cfg : Config) (k : Kernel) (env : IdentEnv) (st : State) :
    Action → State
  | .chmodEntry tid mode => trace__sys_chmod cfg tid mode st
  | .setattrHook tid file => hook_setattr tid file st
  | .chmodExit tid retval => handle_sys_chmod_exit cfg env tid retval st
  | .mountEntry tid => sys_mount_entry tid st
  | .attachRecursiveMnt tid src dest mp =>
      kprobe__attach_recursive_mnt cfg k tid src dest mp st
  | .propagateMnt tid dest mp src =>
      kprobe__propagate_mnt cfg k tid dest mp src st
  | .mountExit tid retval => handle_sys_mount_exit cfg k env tid retval st

/-- A sequence of invocations, delivered in order. -/
def run (cfg : Config) (k : Kernel) (env : IdentEnv) (st : State)
    (acts : List Action) : State :=
  acts.foldl (step cfg k env) st

/-- A concrete configuration admitting everything, classifying every
negative return code as unhandled, with walk depth 16. -/
def cfg0 : Config :=
  { fetch_policy := fun _ => { mode := .monitor }
    is_unhandled_error := fun r => decide (r < 0)
    max_depth := 16 }

/-- A concrete configuration whose filter discards every syscall family. -/
def cfgD : Config :=
  { fetch_policy := fun _ => { mode := .discard }
    is_unhandled_error := fun r => decide (r < 0)
    max_depth := 16 }

/-- A concrete kernel in which every dentry is a filesystem root. -/
def k0 : Kernel :=
  { ino := fun _ => 0
    parent := fun d => d
    dname := fun _ => ""
    fstype_name := fun _ => "" }

/-- A concrete identity environment with empty caches. -/
def env0 : IdentEnv :=
  { proc := fun _ => none, container := fun _ => none }

/-- The pending entry created by the mount entry probe. -/
def sMount0 : SyscallCache :=
  { type := .mount, policy := default, setattr := default, mount := default }

/-- A concrete state with one pending mount entry for thread 4, no hook
having fired. -/
def stMount4 : State :=
  step cfg0 k0 env0 initState (.mountEntry 4)

/-- A concrete state with one pending chmod entry for thread 1. -/
def stChmod1 : State :=
  step cfg0 k0 env0 initState (.chmodEntry 1 420)

/-- The pending entry created by an admitted mode-change entry. -/
def chmod_entry_cache (cfg : Config) (mode : Nat) : SyscallCache :=
  { type := .chmod
    policy := cfg.fetch_policy .chmod
    setattr := { mode := mode &&& S_IALLUGO, dentry := none, file := default }
    mount := default }

/-! ## Lemmas about the pending-syscall cache operations -/

theorem lookup_remove_self (c : Cache) (tid : Tid) (t : EventType) :
    lookup_syscall (remove_key c (tid, t)) tid t = none := by
  induction c with
  | nil => rfl
  | cons e c ih =>
      by_cases h : e.1 = (tid, t)
      · simpa [remove_key, h] using ih
      · simp [remove_key, lookup_syscall, h, ih]

theorem remove_key_sublist (c : Cache) (key : CacheKey) :
    List.Sublist (remove_key c key) c := by
  induction c with
  | nil => exact List.Sublist.slnil
  | cons e c ih =>
      by_cases h : e.1 = key
      · simpa [remove_key, h] using List.Sublist.cons e ih
      · simpa [remove_key, h] using List.Sublist.cons₂ e ih

theorem not_mem_keys_remove (c : Cache) (key : CacheKey) :
    key ∉ (remove_key c key).map Prod.fst := by
  induction c with
  | nil => simp [remove_key]
  | cons e c ih =>
      by_cases h : e.1 = key
      · simpa [remove_key, h] using ih
      · simp only [remove_key, if_neg h, List.map_cons, List.mem_cons, not_or]
        exact ⟨fun hk => h hk.symm, ih⟩

theorem keys_nodup_remove (c : Cache) (key : CacheKey)
    (h : (c.map Prod.fst).Nodup) : ((remove_key c key).map Prod.fst).Nodup :=
  h.sublist ((remove_key_sublist c key).map Prod.fst)

theorem keys_update (c : Cache) (tid : Tid) (t : EventType)
    (f : SyscallCache → SyscallCache) :
    (update_syscall c tid t f).map Prod.fst = c.map Prod.fst := by
  induction c with
  | nil => rfl
  | cons e c ih =>
      by_cases h : e.1 = (tid, t) <;> simp [update_syscall, h, ih]

theorem lookup_update_self (c : Cache) (tid : Tid) (t : EventType)
    (f : SyscallCache → SyscallCache) :
    lookup_syscall (update_syscall c tid t f) tid t
      = (lookup_syscall c tid t).map f := by
  induction c with
  | nil => rfl
  | cons e c ih =>
      by_cases h : e.1 = (tid, t) <;>
        simp [update_syscall, lookup_syscall, h, ih]

theorem lookup_update_other (c : Cache) (tid : Tid) (t : EventType)
    (tid2 : Tid) (t2 : EventType) (f : SyscallCache → SyscallCache)
    (h : (tid2, t2) ≠ (tid, t)) :
    lookup_syscall (update_syscall c tid t f) tid2 t2
      = lookup_syscall c tid2 t2 := by
  induction c with
  | nil => rfl
  | cons e c ih =>
      have h2 : ¬(tid = tid2 ∧ t = t2) := by
        rintro ⟨rfl, rfl⟩; exact h rfl
      have h3 : ¬(tid2 = tid ∧ t2 = t) := by
        rintro ⟨rfl, rfl⟩; exact h rfl
      by_cases he : e.1 = (tid, t)
      · simp [update_syscall, lookup_syscall, he, h2, h3, ih]
      · by_cases he2 : e.1 = (tid2, t2) <;>
          simp [update_syscall, lookup_syscall, he, he2, h2, h3, ih]

theorem lookup_cache_self (c : Cache) (tid : Tid) (s : SyscallCache) :
    lookup_syscall (cache_syscall c tid s) tid s.type = some s := by
  simp [cache_syscall, lookup_syscall]

/-! ## Lemmas about single steps and runs -/

theorem hook_not_ret (a : Action) (h : a.isHook = true) : a.isRet = false := by
  cases a <;> simp_all [Action.isHook, Action.isRet]

theorem step_not_ret_emitted (cfg : Config) (k : Kernel) (env : IdentEnv)
    (st : State) (a : Action) (h : a.isRet = false) :
    (step cfg k env st a).emitted = st.emitted := by
  cases a with
  | chmodEntry tid mode =>
      simp only [step, trace__sys_chmod]
      split <;> rfl
  | setattrHook tid file =>
      simp only [step, hook_setattr]
      cases peek_syscall st.cache tid .chmod <;> rfl
  | chmodExit tid retval => simp [Action.isRet] at h
  | mountEntry tid => rfl
  | attachRecursiveMnt tid src dest mp =>
      simp only [step, kprobe__attach_recursive_mnt]
      cases peek_syscall st.cache tid .mount <;> rfl
  | propagateMnt tid dest mp src =>
      simp only [step, kprobe__propagate_mnt]
      cases peek_syscall st.cache tid .mount <;> rfl
  | mountExit tid retval => simp [Action.isRet] at h

theorem hook_lookup_chmod (cfg : Config) (k : Kernel) (env : IdentEnv)
    (st : State) (tid : Tid) (a : Action) (h : a.isHook = true) :
    (lookup_syscall (step cfg k env st a).cache tid .chmod).map
        (fun s => s.setattr.mode)
      = (lookup_syscall st.cache tid .chmod).map (fun s => s.setattr.mode) := by
  cases a with
  | chmodEntry tid2 mode => simp [Action.isHook] at h
  | chmodExit tid2 retval => simp [Action.isHook] at h
  | mountEntry tid2 => simp [Action.isHook] at h
  | mountExit tid2 retval => simp [Action.isHook] at h
  | setattrHook tid2 file =>
      simp only [step, hook_setattr]
      cases hp : peek_syscall st.cache tid2 .chmod with
      | none => rfl
      | some s0 =>
          by_cases ht : tid = tid2
          · subst ht
            simp only [lookup_update_self, Option.map_map]
            cases lookup_syscall st.cache tid .chmod <;> rfl
          · rw [show (update_syscall st.cache tid2 EventType.chmod
                (fun s => { s with setattr := { s.setattr with file := file } })
                  : Cache) = _ from rfl]
            rw [lookup_update_other]
            rintro hh
            exact ht (congrArg Prod.fst hh)
  | attachRecursiveMnt tid2 src dest mp =>
      simp only [step, kprobe__attach_recursive_mnt]
      cases hp : peek_syscall st.cache tid2 .mount with
      | none => rfl
      | some s0 =>
          rw [lookup_update_other]
          rintro hh
          exact EventType.noConfusion (congrArg Prod.snd hh)
  | propagateMnt tid2 dest mp src =>
      simp only [step, kprobe__propagate_mnt]
      cases hp : peek_syscall st.cache tid2 .mount with
      | none => rfl
      | some s0 =>
          rw [lookup_update_other]
          rintro hh
          exact EventType.noConfusion (congrArg Prod.snd hh)

theorem run_append (cfg : Config) (k : Kernel) (env : IdentEnv) (st : State)
    (l1 l2 : List Action) :
    run cfg k env st (l1 ++ l2) = run cfg k env (run cfg k env st l1) l2 := by
  simp [run, List.foldl_append]

theorem run_cons (cfg : Config) (k : Kernel) (env : IdentEnv) (st : State)
    (a : Action) (l : List Action) :
    run cfg k env st (a :: l) = run cfg k env (step cfg k env st a) l := rfl

theorem run_one (cfg : Config) (k : Kernel) (env : IdentEnv) (st : State)
    (a : Action) : run cfg k env st [a] = step cfg k env st a := rfl

theorem run_hooks_emitted (cfg : Config) (k : Kernel) (env : IdentEnv)
    (hooks : List Action) (st : State)
    (h : ∀ a ∈ hooks, a.isHook = true) :
    (run cfg k env st hooks).emitted = st.emitted := by
  induction hooks generalizing st with
  | nil => rfl
  | cons a l ih =>
      rw [run_cons, ih _ (fun b hb => h b (List.mem_cons_of_mem a hb))]
      exact step_not_ret_emitted cfg k env st a
        (hook_not_ret a (h a (List.mem_cons_self a l)))

theorem run_hooks_lookup_chmod (cfg : Config) (k : Kernel) (env : IdentEnv)
    (hooks : List Action) (st : State) (tid : Tid)
    (h : ∀ a ∈ hooks, a.isHook = true) :
    (lookup_syscall (run cfg k env st hooks).cache tid .chmod).map
        (fun s => s.setattr.mode)
      = (lookup_syscall st.cache tid .chmod).map (fun s => s.setattr.mode) := by
  induction hooks generalizing st with
  | nil => rfl
  | cons a l ih =>
      rw [run_cons, ih _ (fun b hb => h b (List.mem_cons_of_mem a hb))]
      exact hook_lookup_chmod cfg k env st tid a (h a (List.mem_cons_self a l))

theorem do_sys_chmod_ret_cache (cfg : Config) (env : IdentEnv) (tid : Tid)
    (s : SyscallCache) (r : Int) (st : State) :
    (do_sys_chmod_ret cfg env tid s r st).cache = st.cache := by
  simp only [do_sys_chmod_ret]
  split <;> rfl

theorem do_sys_mount_ret_cache (cfg : Config) (k : Kernel) (env : IdentEnv)
    (tid : Tid) (s : SyscallCache) (r : Int) (st : State) :
    (do_sys_mount_ret cfg k env tid s r st).cache = st.cache := by
  simp only [do_sys_mount_ret]
  split
  · rfl
  · split <;> rfl

/-! ## Entry and exit handler characterizations -/

theorem run_nil (cfg : Config) (k : Kernel) (env : IdentEnv) (st : State) :
    run cfg k env st [] = st := rfl

theorem trace_chmod_discarded (cfg : Config) (k : Kernel) (env : IdentEnv)
    (tid : Tid) (mode : Nat) (st : State)
    (hd : is_discarded_by_process (cfg.fetch_policy .chmod).mode .chmod = true) :
    step cfg k env st (.chmodEntry tid mode) = st := by
  simp [step, trace__sys_chmod, hd]

theorem trace_chmod_admitted (cfg : Config) (k : Kernel) (env : IdentEnv)
    (tid : Tid) (mode : Nat) (st : State)
    (hadm : is_discarded_by_process (cfg.fetch_policy .chmod).mode .chmod = false) :
    step cfg k env st (.chmodEntry tid mode)
      = { st with cache := cache_syscall st.cache tid (chmod_entry_cache cfg mode) } := by
  simp [step, trace__sys_chmod, hadm, chmod_entry_cache]

theorem mount_entry_step (cfg : Config) (k : Kernel) (env : IdentEnv)
    (tid : Tid) (st : State) :
    step cfg k env st (.mountEntry tid)
      = { st with cache := cache_syscall st.cache tid sMount0 } := rfl

theorem chmod_exit_none (cfg : Config) (k : Kernel) (env : IdentEnv)
    (tid : Tid) (r : Int) (st : State)
    (h : lookup_syscall st.cache tid .chmod = none) :
    step cfg k env st (.chmodExit tid r) = st := by
  simp [step, handle_sys_chmod_exit, pop_syscall, h]

theorem mount_exit_none (cfg : Config) (k : Kernel) (env : IdentEnv)
    (tid : Tid) (r : Int) (st : State)
    (h : lookup_syscall st.cache tid .mount = none) :
    step cfg k env st (.mountExit tid r) = st := by
  simp [step, handle_sys_mount_exit, pop_syscall, h]

theorem mount_exit_some_len (cfg : Config) (k : Kernel) (env : IdentEnv)
    (tid : Tid) (r : Int) (st : State) (s : SyscallCache)
    (hl : lookup_syscall st.cache tid .mount = some s) :
    (step cfg k env st (.mountExit tid r)).emitted.length
      = st.emitted.length
        + (if r = 0 ∧ ¬(get_mount_mount_id s.mount.src_mnt = 0
              ∧ get_mount_dev s.mount.src_mnt = 0) then 1 else 0) := by
  simp only [step, handle_sys_mount_exit, pop_syscall, hl]
  by_cases hr0 : r = 0
  · subst hr0
    by_cases hz : get_mount_mount_id s.mount.src_mnt = 0
        ∧ get_mount_dev s.mount.src_mnt = 0
    · simp [do_sys_mount_ret, hz, send_event]
    · simp [do_sys_mount_ret, hz, send_event]
  · simp [do_sys_mount_ret, hr0]

theorem chmod_occurrence_emits (cfg : Config) (k : Kernel) (env : IdentEnv)
    (tid : Tid) (mode : Nat) (r : Int) (st : State) (hooks : List Action)
    (hH : ∀ a ∈ hooks, a.isHook = true)
    (hadm : is_discarded_by_process (cfg.fetch_policy .chmod).mode .chmod = false)
    (hr : cfg.is_unhandled_error r = false) (s1 : SyscallCache)
    (hs1 : lookup_syscall
        (run cfg k env (step cfg k env st (.chmodEntry tid mode)) hooks).cache
        tid .chmod = some s1) :
    (run cfg k env st (.chmodEntry tid mode :: hooks ++ [.chmodExit tid r])).emitted
      = st.emitted ++ [Event.chmod
          { retval := r
            process := fill_process_context env tid
            container := fill_container_context env tid
            file := s1.setattr.file
            mode := s1.setattr.mode }]
    ∧ s1.setattr.mode = mode &&& S_IALLUGO := by
  have hlc : lookup_syscall (cache_syscall st.cache tid (chmod_entry_cache cfg mode))
      tid .chmod = some (chmod_entry_cache cfg mode) :=
    lookup_cache_self st.cache tid (chmod_entry_cache cfg mode)
  have hmode : s1.setattr.mode = mode &&& S_IALLUGO := by
    have hmap := run_hooks_lookup_chmod cfg k env hooks
      (step cfg k env st (.chmodEntry tid mode)) tid hH
    rw [hs1, trace_chmod_admitted cfg k env tid mode st hadm] at hmap
    dsimp only at hmap
    rw [hlc] at hmap
    simpa [chmod_entry_cache] using hmap
  refine ⟨?_, hmode⟩
  have hem : (run cfg k env (step cfg k env st (.chmodEntry tid mode)) hooks).emitted
      = st.emitted := by
    rw [run_hooks_emitted cfg k env hooks _ hH]
    exact step_not_ret_emitted cfg k env st _ rfl
  have hs1a : lookup_syscall
      (run cfg k env (trace__sys_chmod cfg tid mode st) hooks).cache
      tid .chmod = some s1 := hs1
  have hema : (run cfg k env (trace__sys_chmod cfg tid mode st) hooks).emitted
      = st.emitted := hem
  simp only [run_cons, run_append, run_one, step, handle_sys_chmod_exit,
    pop_syscall, hs1a]
  simp [do_sys_chmod_ret, hr, send_event, run_nil, hema]

/-! ## Key-uniqueness invariant of the cache -/

theorem step_keys_nodup (cfg : Config) (k : Kernel) (env : IdentEnv)
    (st : State) (a : Action)
    (h : (st.cache.map Prod.fst).Nodup) :
    ((step cfg k env st a).cache.map Prod.fst).Nodup := by
  cases a with
  | chmodEntry tid mode =>
      simp only [step, trace__sys_chmod]
      split
      · exact h
      · simp only [cache_syscall, List.map_cons]
        exact List.nodup_cons.mpr
          ⟨not_mem_keys_remove _ _, keys_nodup_remove _ _ h⟩
  | setattrHook tid file =>
      simp only [step, hook_setattr]
      cases hp : peek_syscall st.cache tid .chmod with
      | none => exact h
      | some s0 => simpa [keys_update] using h
  | chmodExit tid retval =>
      simp only [step, handle_sys_chmod_exit, pop_syscall]
      cases hp : lookup_syscall st.cache tid .chmod with
      | none => simpa [hp] using h
      | some s0 =>
          simp only [hp]
          rw [do_sys_chmod_ret_cache]
          exact keys_nodup_remove _ _ h
  | mountEntry tid =>
      simp only [step, sys_mount_entry, cache_syscall, List.map_cons]
      exact List.nodup_cons.mpr
        ⟨not_mem_keys_remove _ _, keys_nodup_remove _ _ h⟩
  | attachRecursiveMnt tid src dest mp =>
      simp only [step, kprobe__attach_recursive_mnt]
      cases hp : peek_syscall st.cache tid .mount with
      | none => exact h
      | some s0 => simpa [keys_update] using h
  | propagateMnt tid dest mp src =>
      simp only [step, kprobe__propagate_mnt]
      cases hp : peek_syscall st.cache tid .mount with
      | none => exact h
      | some s0 => simpa [keys_update] using h
  | mountExit tid retval =>
      simp only [step, handle_sys_mount_exit, pop_syscall]
      cases hp : lookup_syscall st.cache tid .mount with
      | none => simpa [hp] using h
      | some s0 =>
          simp only [hp]
          rw [do_sys_mount_ret_cache]
          exact keys_nodup_remove _ _ h

theorem run_keys_nodup (cfg : Config) (k : Kernel) (env : IdentEnv)
    (acts : List Action) (st : State)
    (h : (st.cache.map Prod.fst).Nodup) :
    ((run cfg k env st acts).cache.map Prod.fst).Nodup := by
  induction acts generalizing st with
  | nil => exact h
  | cons a l ih => exact ih _ (step_keys_nodup cfg k env st a h)

/-! ## Arithmetic and walk lemmas -/

theorem land_mask_self (m mask : Nat) : (m &&& mask) &&& mask = m &&& mask := by
  apply Nat.eq_of_testBit_eq
  intro i
  simp only [Nat.testBit_land, Bool.and_assoc, Bool.and_self]

theorem walk_len_le (k : Kernel) (mid : Nat) (d : DentryId) (fuel : Nat) :
    (dentry_walk k mid d fuel).length ≤ fuel := by
  induction fuel generalizing d with
  | zero => simp [dentry_walk]
  | succ n ih =>
      by_cases h : k.parent d = d
      · simp [dentry_walk, h]
      · simp only [dentry_walk, if_neg h, List.length_cons]
        exact Nat.succ_le_succ (ih (k.parent d))

/-! ## Claim theorems -/

/-- C1 (amended): over one occurrence (entry, any intermediate hooks, exit,
all other interleaved actions being hooks), the engine emits exactly one
event for an admitted mode-change occurrence reaching a handled exit, zero
for a discarded occurrence (given no stale pending entry for the key), zero
for an abandoned occurrence (no exit observed), and for a mount occurrence
reaching exit exactly one event when retval is zero — except that it emits
zero when the pending source mount reads id zero and device zero, as it does
whenever no intermediate hook populated the entry. -/
theorem one_event_per_occurrence (cfg : Config) (k : Kernel) (env : IdentEnv)
    (tid : Tid) (mode : Nat) (r : Int) (st : State) (hooks : List Action)
    (hH : ∀ a ∈ hooks, a.isHook = true) :
    (is_discarded_by_process (cfg.fetch_policy .chmod).mode .chmod = true →
      lookup_syscall st.cache tid .chmod = none →
      (run cfg k env st
          (.chmodEntry tid mode :: hooks ++ [.chmodExit tid r])).emitted
        = st.emitted)
    ∧ (is_discarded_by_process (cfg.fetch_policy .chmod).mode .chmod = false →
      cfg.is_unhandled_error r = false →
      (run cfg k env st
          (.chmodEntry tid mode :: hooks ++ [.chmodExit tid r])).emitted.length
        = st.emitted.length + 1)
    ∧ (run cfg k env st (.chmodEntry tid mode :: hooks)).emitted = st.emitted
    ∧ (run cfg k env st (.mountEntry tid :: hooks)).emitted = st.emitted
    ∧ (∀ s : SyscallCache,
      lookup_syscall (run cfg k env st (.mountEntry tid :: hooks)).cache
          tid .mount = some s →
      (run cfg k env st
          (.mountEntry tid :: hooks ++ [.mountExit tid r])).emitted.length
        = st.emitted.length
          + (if r = 0 ∧ ¬(get_mount_mount_id s.mount.src_mnt = 0
                ∧ get_mount_dev s.mount.src_mnt = 0) then 1 else 0)) := by
  refine ⟨?_, ?_, ?_, ?_, ?_⟩
  · intro hd hcl
    simp only [run_cons, run_append, run_one, run_nil]
    rw [trace_chmod_discarded cfg k env tid mode st hd]
    have hlH : lookup_syscall (run cfg k env st hooks).cache tid .chmod
        = none := by
      have hmap := run_hooks_lookup_chmod cfg k env hooks st tid hH
      rw [hcl] at hmap
      cases hl2 : lookup_syscall (run cfg k env st hooks).cache tid .chmod with
      | none => rfl
      | some s1 => rw [hl2] at hmap; simp at hmap
    rw [chmod_exit_none cfg k env tid r _ hlH]
    exact run_hooks_emitted cfg k env hooks st hH
  · intro hadm hr
    have h2 : lookup_syscall (step cfg k env st (.chmodEntry tid mode)).cache
        tid .chmod = some (chmod_entry_cache cfg mode) := by
      rw [trace_chmod_admitted cfg k env tid mode st hadm]
      exact lookup_cache_self st.cache tid (chmod_entry_cache cfg mode)
    have hsome : (lookup_syscall
        (run cfg k env (step cfg k env st (.chmodEntry tid mode)) hooks).cache
        tid .chmod).isSome = true := by
      have hmap := run_hooks_lookup_chmod cfg k env hooks
        (step cfg k env st (.chmodEntry tid mode)) tid hH
      rw [h2] at hmap
      cases hl2 : lookup_syscall
          (run cfg k env (step cfg k env st (.chmodEntry tid mode)) hooks).cache
          tid .chmod with
      | none => rw [hl2] at hmap; exact absurd hmap (by simp)
      | some s1 => rfl
    obtain ⟨s1, hl2⟩ := Option.isSome_iff_exists.mp hsome
    obtain ⟨he, -⟩ := chmod_occurrence_emits cfg k env tid mode r st hooks
      hH hadm hr s1 hl2
    rw [he]
    simp
  · simp only [run_cons]
    rw [run_hooks_emitted cfg k env hooks _ hH]
    exact step_not_ret_emitted cfg k env st _ rfl
  · simp only [run_cons]
    rw [run_hooks_emitted cfg k env hooks _ hH]
    exact step_not_ret_emitted cfg k env st _ rfl
  · intro s hs
    simp only [run_cons] at hs
    have hlen : (run cfg k env (step cfg k env st (.mountEntry tid)) hooks).emitted
        = st.emitted := by
      rw [run_hooks_emitted cfg k env hooks _ hH]
      exact step_not_ret_emitted cfg k env st _ rfl
    simp only [run_cons, run_append, run_one, run_nil]
    rw [mount_exit_some_len cfg k env tid r _ s hs, hlen]

/-- C1 witness: at concrete inputs, an admitted chmod occurrence with a
handled exit emits exactly one event, and a mount occurrence with no hooks
emits zero despite its zero retval. -/
theorem one_event_per_occurrence_w :
    (run cfg0 k0 env0 initState
        [Action.chmodEntry 1 420, Action.chmodExit 1 0]).emitted.length
      = initState.emitted.length + 1
    ∧ (run cfg0 k0 env0 initState
        [Action.mountEntry 1, Action.mountExit 1 0]).emitted.length
      = initState.emitted.length
        + (if (0 : Int) = 0 ∧ ¬(get_mount_mount_id sMount0.mount.src_mnt = 0
              ∧ get_mount_dev sMount0.mount.src_mnt = 0) then 1 else 0) := by
  constructor
  · exact (one_event_per_occurrence cfg0 k0 env0 1 420 0 initState []
      (by intro a ha; cases ha)).2.1 rfl rfl
  · exact (one_event_per_occurrence cfg0 k0 env0 1 420 0 initState []
      (by intro a ha; cases ha)).2.2.2.2 sMount0 rfl

/-- C1 counterexample to the claim as stated: this mount occurrence is
admitted at entry (a pending entry exists right after the entry probe) and
reaches a normal exit with retval 0, yet zero events are emitted, because no
intermediate hook fired and the source mount reads zero id and device. -/
theorem one_event_per_occurrence_cex :
    (lookup_syscall (run cfg0 k0 env0 initState
        [Action.mountEntry 7]).cache 7 .mount).isSome = true
    ∧ (run cfg0 k0 env0 initState
        [Action.mountEntry 7, Action.mountExit 7 0]).emitted = [] :=
  ⟨rfl, rfl⟩

/-- C2 (amended): the mode-change entry handler evaluates the policy filter
before inserting and creates a pending entry only when the filter admits;
the mount entry handler creates its pending entry unconditionally, for every
configuration, without evaluating any policy filter. -/
theorem entry_filter_gates_cache (cfg : Config) (k : Kernel) (env : IdentEnv)
    (tid : Tid) (mode : Nat) (st : State) :
    (is_discarded_by_process (cfg.fetch_policy .chmod).mode .chmod = true →
      step cfg k env st (.chmodEntry tid mode) = st)
    ∧ (is_discarded_by_process (cfg.fetch_policy .chmod).mode .chmod = false →
      lookup_syscall (step cfg k env st (.chmodEntry tid mode)).cache tid .chmod
        = some (chmod_entry_cache cfg mode))
    ∧ (∀ cfg2 : Config,
      lookup_syscall (step cfg2 k env st (.mountEntry tid)).cache tid .mount
        = some sMount0) := by
  refine ⟨trace_chmod_discarded cfg k env tid mode st, ?_, ?_⟩
  · intro hadm
    rw [trace_chmod_admitted cfg k env tid mode st hadm]
    exact lookup_cache_self st.cache tid (chmod_entry_cache cfg mode)
  · intro cfg2
    rw [mount_entry_step cfg2 k env tid st]
    exact lookup_cache_self st.cache tid sMount0

/-- C2 witness: at concrete inputs, a discarding policy makes the chmod
entry a no-op, and an admitting one caches the masked-mode entry. -/
theorem entry_filter_gates_cache_w :
    step cfgD k0 env0 initState (.chmodEntry 3 420) = initState
    ∧ lookup_syscall (step cfg0 k0 env0 initState (.chmodEntry 3 420)).cache
        3 .chmod = some (chmod_entry_cache cfg0 420) :=
  ⟨(entry_filter_gates_cache cfgD k0 env0 3 420 initState).1 rfl,
   (entry_filter_gates_cache cfg0 k0 env0 3 420 initState).2.1 rfl⟩

/-- C2 counterexample to the claim as stated: under a configuration whose
filter discards every family, the mount entry handler still creates a
pending cache entry. -/
theorem entry_filter_gates_cache_cex :
    is_discarded_by_process (cfgD.fetch_policy .mount).mode .mount = true
    ∧ (lookup_syscall (step cfgD k0 env0 initState (.mountEntry 5)).cache
        5 .mount).isSome = true :=
  ⟨rfl, rfl⟩

/-- C3: in every state reachable from the initial one the cache keys are
pairwise distinct, so at most one pending entry exists per (thread, type)
key; cache_syscall on an occupied key overwrites, so the lookup afterwards
returns the new payload (last write wins); and an exit arriving after the
slot for its key was already consumed by an exit finds no entry and leaves
the state unchanged. -/
theorem pending_single_slot_lww (cfg : Config) (k : Kernel) (env : IdentEnv) :
    (∀ acts : List Action,
      ((run cfg k env initState acts).cache.map Prod.fst).Nodup)
    ∧ (∀ (c : Cache) (tid : Tid) (s : SyscallCache),
      lookup_syscall (cache_syscall c tid s) tid s.type = some s)
    ∧ (∀ (st : State) (tid : Tid) (r r2 : Int),
      step cfg k env (step cfg k env st (.chmodExit tid r)) (.chmodExit tid r2)
        = step cfg k env st (.chmodExit tid r))
    ∧ (∀ (st : State) (tid : Tid) (r r2 : Int),
      step cfg k env (step cfg k env st (.mountExit tid r)) (.mountExit tid r2)
        = step cfg k env st (.mountExit tid r)) := by
  refine ⟨?_, lookup_cache_self, ?_, ?_⟩
  · intro acts
    exact run_keys_nodup cfg k env acts initState (by simp [initState])
  · intro st tid r r2
    have hnone : lookup_syscall
        (step cfg k env st (.chmodExit tid r)).cache tid .chmod = none := by
      simp only [step, handle_sys_chmod_exit, pop_syscall]
      cases hp : lookup_syscall st.cache tid .chmod with
      | none => simp [hp]
      | some s0 =>
          simp only [hp]
          rw [do_sys_chmod_ret_cache]
          exact lookup_remove_self st.cache tid .chmod
    exact chmod_exit_none cfg k env tid r2 _ hnone
  · intro st tid r r2
    have hnone : lookup_syscall
        (step cfg k env st (.mountExit tid r)).cache tid .mount = none := by
      simp only [step, handle_sys_mount_exit, pop_syscall]
      cases hp : lookup_syscall st.cache tid .mount with
      | none => simp [hp]
      | some s0 =>
          simp only [hp]
          rw [do_sys_mount_ret_cache]
          exact lookup_remove_self st.cache tid .mount
    exact mount_exit_none cfg k env tid r2 _ hnone

/-- C4: an exit whose pop of the pending-syscall cache finds no entry for
the current thread and syscall type is a complete silent no-op: the state,
including the emitted events, is unchanged, for both families. -/
theorem exit_without_pending_noop (cfg : Config) (k : Kernel) (env : IdentEnv)
    (tid : Tid) (r : Int) (st : State)
    (hc : lookup_syscall st.cache tid .chmod = none)
    (hm : lookup_syscall st.cache tid .mount = none) :
    step cfg k env st (.chmodExit tid r) = st
    ∧ step cfg k env st (.mountExit tid r) = st :=
  ⟨chmod_exit_none cfg k env tid r st hc,
   mount_exit_none cfg k env tid r st hm⟩

/-- C4 witness: from the empty state, both exits are no-ops. -/
theorem exit_without_pending_noop_w :
    step cfg0 k0 env0 initState (.chmodExit 2 0) = initState
    ∧ step cfg0 k0 env0 initState (.mountExit 2 0) = initState :=
  exit_without_pending_noop cfg0 k0 env0 2 0 initState rfl rfl

/-- C5: a return value classified as an unhandled error suppresses emission:
for the mode-change family whenever the classification flags the retval, and
for the mount family for every nonzero retval. -/
theorem unhandled_error_no_event (cfg : Config) (k : Kernel) (env : IdentEnv)
    (tid : Tid) (r rm : Int) (st : State)
    (hr : cfg.is_unhandled_error r = true) (hrm : rm ≠ 0) :
    (step cfg k env st (.chmodExit tid r)).emitted = st.emitted
    ∧ (step cfg k env st (.mountExit tid rm)).emitted = st.emitted := by
  constructor
  · simp only [step, handle_sys_chmod_exit, pop_syscall]
    cases hp : lookup_syscall st.cache tid .chmod with
    | none => simp [hp]
    | some s0 => simp [hp, do_sys_chmod_ret, hr]
  · simp only [step, handle_sys_mount_exit, pop_syscall]
    cases hp : lookup_syscall st.cache tid .mount with
    | none => simp [hp]
    | some s0 => simp [hp, do_sys_mount_ret, hrm]

/-- C5 witness: with a pending chmod entry for thread 1, an exit carrying
retval -4 (flagged unhandled by cfg0) emits nothing, and a mount exit with
retval -1 emits nothing. -/
theorem unhandled_error_no_event_w :
    (step cfg0 k0 env0 stChmod1 (.chmodExit 1 (-4))).emitted
      = stChmod1.emitted
    ∧ (step cfg0 k0 env0 stChmod1 (.mountExit 1 (-1))).emitted
      = stChmod1.emitted :=
  unhandled_error_no_event cfg0 k0 env0 1 (-4) (-1) stChmod1 rfl (by decide)

/-- C6 (amended): a mount occurrence whose intermediate transition hooks
never fired reaches its exit without crashing or blocking (the handler is a
total function), but the engine emits no event: the pending entry still
holds a null source mount, so the source mount id and device both read zero
and the exit handler consumes the entry and returns before identity fill,
dentry resolution and publication. -/
theorem mount_exit_without_hook (cfg : Config) (k : Kernel) (env : IdentEnv)
    (tid : Tid) (st : State) (s : SyscallCache)
    (hl : lookup_syscall st.cache tid .mount = some s)
    (hs : s.mount.src_mnt = none) :
    step cfg k env st (.mountExit tid 0)
      = { st with cache := remove_key st.cache (tid, .mount) } := by
  simp only [step, handle_sys_mount_exit, pop_syscall, hl]
  simp [do_sys_mount_ret, hs, get_mount_mount_id, get_mount_dev]

/-- C6 witness: the concrete pending mount entry of thread 4, never touched
by a hook, is consumed at exit with nothing emitted. -/
theorem mount_exit_without_hook_w :
    step cfg0 k0 env0 stMount4 (.mountExit 4 0)
      = { stMount4 with cache := remove_key stMount4.cache (4, .mount) } :=
  mount_exit_without_hook cfg0 k0 env0 4 stMount4 sMount0 rfl rfl

/-- C6 counterexample to the claim as stated: the claim says the engine
still emits an event with default fields; on this concrete occurrence whose
hooks never fired, the exit emits nothing at all. -/
theorem mount_exit_without_hook_cex :
    (run cfg0 k0 env0 initState
        [Action.mountEntry 9, Action.mountExit 9 0]).emitted = [] :=
  rfl

/-- C7: with an admitting policy, a mode-change occurrence whose
intermediate hook resolved the target file key, carrying new mode bits
0o644 and exiting with retval 0, emits exactly one event whose mode field
is 0o644 and whose file identity is the target (mount id, inode) path key. -/
theorem chmod_0644_event (cfg : Config) (k : Kernel) (env : IdentEnv)
    (tid : Tid) (st : State) (key : PathKey)
    (hadm : is_discarded_by_process (cfg.fetch_policy .chmod).mode .chmod = false)
    (h0 : cfg.is_unhandled_error 0 = false) :
    (run cfg k env st
        [.chmodEntry tid 0o644, .setattrHook tid { path_key := key },
         .chmodExit tid 0]).emitted
      = st.emitted ++ [Event.chmod
          { retval := 0
            process := fill_process_context env tid
            container := fill_container_context env tid
            file := { path_key := key }
            mode := 0o644 }] := by
  have hmask : (0o644 : Nat) &&& S_IALLUGO = 0o644 := by decide
  simp [run, step, trace__sys_chmod, hadm, hook_setattr, peek_syscall,
    handle_sys_chmod_exit, pop_syscall, do_sys_chmod_ret, h0, send_event,
    cache_syscall, lookup_syscall, update_syscall, hmask]

/-- C7 witness: the concrete occurrence for thread 6 and path key (3, 42)
emits exactly that one event. -/
theorem chmod_0644_event_w :
    (run cfg0 k0 env0 initState
        [Action.chmodEntry 6 0o644,
         Action.setattrHook 6 { path_key := { mount_id := 3, ino := 42 } },
         Action.chmodExit 6 0]).emitted
      = initState.emitted ++ [Event.chmod
          { retval := 0
            process := fill_process_context env0 6
            container := fill_container_context env0 6
            file := { path_key := { mount_id := 3, ino := 42 } }
            mode := 0o644 }] :=
  chmod_0644_event cfg0 k0 env0 6 initState { mount_id := 3, ino := 42 } rfl rfl

/-- C8: the dentry walk of resolve_dentry produces at most max_depth
fragments for every input (it is a total function, so it terminates even on
cyclic ancestry), and a handle that is already a filesystem root, that is
its own parent, produces the empty fragment sequence. -/
theorem resolve_dentry_bounded (k : Kernel) (key : PathKey)
    (dOpt : Option DentryId) (d : DentryId) (max_depth : Nat) :
    (resolve_dentry k dOpt key max_depth).length ≤ max_depth
    ∧ (k.parent d = d → resolve_dentry k (some d) key max_depth = []) := by
  constructor
  · cases dOpt with
    | none => simp [resolve_dentry]
    | some d0 => exact walk_len_le k key.mount_id d0 max_depth
  · intro hroot
    cases max_depth with
    | zero => rfl
    | succ n => simp [resolve_dentry, dentry_walk, hroot]

/-- C8 witness: in the concrete kernel where every dentry is its own
parent, the walk from dentry 0 is empty and bounded by 16. -/
theorem resolve_dentry_bounded_w :
    (resolve_dentry k0 (some 0) { mount_id := 1, ino := 1 } 16).length ≤ 16
    ∧ resolve_dentry k0 (some 0) { mount_id := 1, ino := 1 } 16 = [] :=
  ⟨(resolve_dentry_bounded k0 { mount_id := 1, ino := 1 } (some 0) 0 16).1,
   (resolve_dentry_bounded k0 { mount_id := 1, ino := 1 } (some 0) 0 16).2 rfl⟩

/-- C9: when the pending source mount reads zero mount id and zero device,
as it does when no intermediate hook populated the entry, a successful mount
exit returns without emitting an event. -/
theorem mount_zero_src_no_event (cfg : Config) (k : Kernel) (env : IdentEnv)
    (tid : Tid) (st : State) (s : SyscallCache)
    (hl : lookup_syscall st.cache tid .mount = some s)
    (h1 : get_mount_mount_id s.mount.src_mnt = 0)
    (h2 : get_mount_dev s.mount.src_mnt = 0) :
    (step cfg k env st (.mountExit tid 0)).emitted = st.emitted := by
  simp only [step, handle_sys_mount_exit, pop_syscall, hl]
  simp [do_sys_mount_ret, h1, h2]

/-- C9 witness: the concrete unpopulated pending entry of thread 4 reads
zero id and zero device, and its successful exit emits nothing. -/
theorem mount_zero_src_no_event_w :
    (step cfg0 k0 env0 stMount4 (.mountExit 4 0)).emitted = stMount4.emitted :=
  mount_zero_src_no_event cfg0 k0 env0 4 stMount4 sMount0 rfl rfl rfl

/-- C10: over an admitted mode-change occurrence with a handled exit, the
emitted event's mode field equals the entry-time mode argument masked with
S_IALLUGO, for every argument value; masking the emitted mode again changes
nothing, so no bit outside the mask ever appears. -/
theorem chmod_mode_always_masked (cfg : Config) (k : Kernel) (env : IdentEnv)
    (tid : Tid) (mode : Nat) (r : Int) (st : State) (hooks : List Action)
    (hH : ∀ a ∈ hooks, a.isHook = true)
    (hadm : is_discarded_by_process (cfg.fetch_policy .chmod).mode .chmod = false)
    (hr : cfg.is_unhandled_error r = false) (s1 : SyscallCache)
    (hs1 : lookup_syscall
        (run cfg k env (step cfg k env st (.chmodEntry tid mode)) hooks).cache
        tid .chmod = some s1) :
    (run cfg k env st
        (.chmodEntry tid mode :: hooks ++ [.chmodExit tid r])).emitted
      = st.emitted ++ [Event.chmod
          { retval := r
            process := fill_process_context env tid
            container := fill_container_context env tid
            file := s1.setattr.file
            mode := mode &&& S_IALLUGO }]
    ∧ (mode &&& S_IALLUGO) &&& S_IALLUGO = mode &&& S_IALLUGO := by
  obtain ⟨he, hm⟩ := chmod_occurrence_emits cfg k env tid mode r st hooks
    hH hadm hr s1 hs1
  rw [hm] at he
  exact ⟨he, land_mask_self mode S_IALLUGO⟩

/-- C10 witness: for the concrete mode argument 42798 (which carries bits
outside the mask), the emitted mode is 42798 masked with S_IALLUGO. -/
theorem chmod_mode_always_masked_w :
    (run cfg0 k0 env0 initState
        [Action.chmodEntry 8 42798, Action.chmodExit 8 0]).emitted
      = initState.emitted ++ [Event.chmod
          { retval := 0
            process := fill_process_context env0 8
            container := fill_container_context env0 8
            file := (chmod_entry_cache cfg0 42798).setattr.file
            mode := 42798 &&& S_IALLUGO }]
    ∧ (42798 &&& S_IALLUGO) &&& S_IALLUGO = 42798 &&& S_IALLUGO :=
  chmod_mode_always_masked cfg0 k0 env0 8 42798 0 initState []
    (by intro a ha; cases ha) rfl rfl (chmod_entry_cache cfg0 42798) rfl
